import Mathlib

/-
Verification of the boards-and-blocks batch validators and the HTTP
transport/error-classification layer of the mattermost focalboard client
(package `boards`).

Shallow embedding: each Go function used by the claims is translated into a
computable Lean definition.  Go's `error` interface values are modelled by the
inductive `Boards.GoErr`, whose constructors stand for the concrete dynamic Go
error types/values that the embedded code can produce; a Go `error` result is
`Option GoErr` with `none` standing for `nil`.
-/

namespace Boards

/-- Dynamic Go error values produced (or matched against) by the embedded
code.  `invalidBlockTypeVal s` is the value `ErrInvalidBlockType{s}` of struct
type `ErrInvalidBlockType`; `invalidBlockTypePtr s` is a pointer value of type
`*ErrInvalidBlockType` pointing at such a struct (no code of the repository
ever constructs one, but `errors.As` in `IsErrInvalidBlockType` matches
exactly that dynamic type, so the model distinguishes it).  The first five
constructors are the sentinel `errors.New` values and the orphan-block struct
of boards_and_blocks.go; the last two model the transport-layer errors of
client.go. -/
inductive GoErr where
  | noBoardsInBoardsAndBlocks
  | noBlocksInBoardsAndBlocks
  | boardIDsAndPatchesMissmatch
  | blockIDsAndPatchesMissmatch
  | blockDoesntBelongToAnyBoard (blockID : String)
  | invalidBlockTypeVal (t : String)
  | invalidBlockTypePtr (t : String)
  | bodyReadFailed (statusCode : Nat) (msg : String)
  | requestReaderError (buf : String)
  | httpDoErr (msg : String)
  deriving DecidableEq, Repr

/-- A board.  Of the Go `Board` struct only the field read by the batch
validators (the opaque string `ID`) is modelled. -/
structure Board where
  ID : String
  deriving DecidableEq, Repr

/-- A block.  Of the Go `Block` struct only the fields read by the batch
validators are modelled: its own `ID` and the `BoardID` foreign key. -/
structure Block where
  ID : String
  BoardID : String
  deriving DecidableEq, Repr

/-- The create-form batch `BoardsAndBlocks` (boards_and_blocks.go): the boards
and the blocks submitted together. -/
structure BoardsAndBlocks where
  Boards : List Board
  Blocks : List Block
  deriving DecidableEq, Repr

/-- The loop `for _, block := range bab.Blocks { if _, ok := boardsMap[block.BoardID]; !ok ... }`
of `BoardsAndBlocks.IsValid`: scan the blocks in list order and return the
orphan error for the first block whose `BoardID` is not a key of the boards
map.  The Go map `boardsMap` (every board's ID mapped to `true`) is modelled
by the list `ids` of board IDs: membership in the map's key set is exactly
membership in that list. -/
def findOrphanBlock (ids : List String) : List Block → Option GoErr
  | [] => none
  | blk :: rest =>
    if ids.contains blk.BoardID then findOrphanBlock ids rest
    else some (GoErr.blockDoesntBelongToAnyBoard blk.ID)

/-- `BoardsAndBlocks.IsValid` of boards_and_blocks.go: empty boards check,
then empty blocks check, then the orphan-block scan. -/
def BoardsAndBlocks.IsValid (bab : BoardsAndBlocks) : Option GoErr :=
  if bab.Boards.length = 0 then some GoErr.noBoardsInBoardsAndBlocks
  else if bab.Blocks.length = 0 then some GoErr.noBlocksInBoardsAndBlocks
  else findOrphanBlock (bab.Boards.map Board.ID) bab.Blocks

/-- A board patch.  The validators only count patches, so the Go struct's
fields are irrelevant and omitted. -/
structure BoardPatch where
  deriving DecidableEq, Repr

/-- A block patch.  The validators only count patches, so the Go struct's
fields are irrelevant and omitted. -/
structure BlockPatch where
  deriving DecidableEq, Repr

/-- The update-form batch `PatchBoardsAndBlocks` (boards_and_blocks.go). -/
structure PatchBoardsAndBlocks where
  BoardIDs : List String
  BoardPatches : List BoardPatch
  BlockIDs : List String
  BlockPatches : List BlockPatch
  deriving DecidableEq, Repr

/-- `PatchBoardsAndBlocks.IsValid` of boards_and_blocks.go: empty board-ID
check, then the two ID-list/patch-list length comparisons. -/
def PatchBoardsAndBlocks.IsValid (dbab : PatchBoardsAndBlocks) : Option GoErr :=
  if dbab.BoardIDs.length = 0 then some GoErr.noBoardsInBoardsAndBlocks
  else if dbab.BoardIDs.length ≠ dbab.BoardPatches.length then
    some GoErr.boardIDsAndPatchesMissmatch
  else if dbab.BlockIDs.length ≠ dbab.BlockPatches.length then
    some GoErr.blockIDsAndPatchesMissmatch
  else none

/-- Calling the create-batch validator twice on one unmodified input, as a
single function returning both results. -/
def validateCreateTwice (bab : BoardsAndBlocks) : Option GoErr × Option GoErr :=
  (bab.IsValid, bab.IsValid)

/-- Calling the patch-batch validator twice on one unmodified input, as a
single function returning both results. -/
def validatePatchTwice (dbab : PatchBoardsAndBlocks) : Option GoErr × Option GoErr :=
  (dbab.IsValid, dbab.IsValid)

/-- Result of one read of an obtained response body, as `io.ReadAll(rp.Body)`
in client.go would see it: either the body's raw bytes (modelled as a string)
or a read failure. -/
inductive BodyRead where
  | bytes (buf : String)
  | failure (msg : String)
  deriving DecidableEq, Repr

/-- The fields of an obtained `*http.Response` that client.go reads: the
status code, the header map (which, like any Go map, may be nil — `none`) and
the body. -/
structure HTTPResponse where
  StatusCode : Nat
  Header : Option (List (String × String))
  Body : BodyRead
  deriving DecidableEq, Repr

/-- Result of one `c.HTTPClient.Do(rq)` call (client.go line 128): the
possibly-nil `*http.Response` and the possibly-nil error. -/
structure DoResult where
  resp : Option HTTPResponse
  err : Option GoErr
  deriving DecidableEq, Repr

/-- What `doAPIRequestReader` hands back, extended with whether it drained
and closed the response body (`defer closeBody(rp)`) before returning. -/
structure TransportOutcome where
  resp : Option HTTPResponse
  err : Option GoErr
  bodyClosed : Bool
  deriving DecidableEq, Repr

/-- Lines 128-147 of client.go: how `doAPIRequestReader` classifies the result
`r` of `c.HTTPClient.Do`.  `if err != nil || rp == nil` returns `nil, err`;
then `rp.StatusCode == http.StatusNotModified` (304) returns the response
with a nil error and its body untouched; then `rp.StatusCode >=
http.StatusMultipleChoices` (300) reads the whole body eagerly under `defer
closeBody(rp)` and returns the response together with `RequestReaderError{b}`
(or, if the read itself failed, the wrapping `fmt.Errorf` error); otherwise
the response comes back with a nil error and an open body. -/
def doAPIRequestReaderClassify (r : DoResult) : TransportOutcome :=
  match r.err, r.resp with
  | some e, _ => ⟨none, some e, false⟩
  | none, none => ⟨none, none, false⟩
  | none, some rp =>
    if rp.StatusCode = 304 then ⟨some rp, none, false⟩
    else if 300 ≤ rp.StatusCode then
      match rp.Body with
      | BodyRead.failure msg => ⟨some rp, some (GoErr.bodyReadFailed rp.StatusCode msg), true⟩
      | BodyRead.bytes b => ⟨some rp, some (GoErr.requestReaderError b), true⟩
    else ⟨some rp, none, false⟩

/-- An `*http.Request` as the header-attaching code of `doAPIRequestReader`
sees it: its header map, kept as an association list in insertion order.
`http.NewRequest` initializes the map non-nil and empty.  Keys are taken to
be already in canonical MIME-header form, which every key the code uses is,
so `Set` and lookup use the key verbatim. -/
structure Request where
  header : List (String × String)
  deriving DecidableEq, Repr

/-- `rq.Header.Set(k, v)`: replace every entry for key `k` with the single
entry `(k, v)`. -/
def Request.setHeader (r : Request) (k v : String) : Request :=
  ⟨r.header.filter (fun p => p.1 ≠ k) ++ [(k, v)]⟩

/-- Lookup of header `k` (`rq.Header.Get(k)`), `none` when the key is absent. -/
def Request.getHeader (r : Request) (k : String) : Option String :=
  (r.header.find? (fun p => p.1 == k)).map Prod.snd

/-- A `requestOption` (client.go line 106): an arbitrary caller-supplied
mutation of the request under construction. -/
def RequestOption : Type := Request → Request

/-- The options loop of `doAPIRequestReader` (lines 114-116): apply each
caller-supplied option in order. -/
def applyOpts (opts : List RequestOption) (rq : Request) : Request :=
  opts.foldl (fun r opt => opt r) rq

/-- The header map `NewClient` configures (`c.HTTPHeader`): the fixed
identification header. -/
def defaultHTTPHeader : List (String × String) :=
  [("X-Requested-With", "XMLHttpRequest")]

/-- Lines 114-126 of `doAPIRequestReader`: the caller-supplied options are
applied first; then, if the client's header map is non-empty, every
configured header is `Set` on the request; then, if the bearer token is
non-empty, the `Authorization: Bearer <token>` header is `Set`. -/
def doAPIRequestReaderHeaders (httpHeader : List (String × String)) (token : String)
    (opts : List RequestOption) (rq : Request) : Request :=
  let rq1 := applyOpts opts rq
  let rq2 := if httpHeader ≠ [] then
      httpHeader.foldl (fun r kv => r.setHeader kv.1 kv.2) rq1
    else rq1
  if token ≠ "" then rq2.setHeader "Authorization" ("Bearer " ++ token) else rq2

/-- The client-side `Response` struct of client.go: status code, error and
header map.  The header field, like `http.Header`, distinguishes the nil map
(`none`) from an empty non-nil one (`some []`). -/
structure Response where
  StatusCode : Nat
  Error : Option GoErr
  Header : Option (List (String × String))
  deriving DecidableEq, Repr

/-- `BuildErrorResponse` of client.go: status defaults to 0 and the header to
a freshly made empty (non-nil) map; when `r` is non-nil both are overwritten
by the response's own status code and header map; the error is stored as
given. -/
def BuildErrorResponse (r : Option HTTPResponse) (err : Option GoErr) : Response :=
  let statusCode : Nat := match r with
    | none => 0
    | some rp => rp.StatusCode
  let header : Option (List (String × String)) := match r with
    | none => some []
    | some rp => rp.Header
  { StatusCode := statusCode, Error := err, Header := header }

/-- BlockType (blocktype.go) is a string type. -/
abbrev BlockType := String

def TypeUnknown : BlockType := "unknown"

def TypeBoard : BlockType := "board"

def TypeCard : BlockType := "card"

def TypeView : BlockType := "view"

def TypeText : BlockType := "text"

def TypeCheckbox : BlockType := "checkbox"

def TypeComment : BlockType := "comment"

def TypeImage : BlockType := "image"

def TypeAttachment : BlockType := "attachment"

def TypeDivider : BlockType := "divider"

/-- The nine lowercase names the switch of `BlockTypeFromString` recognizes. -/
def recognizedBlockTypeNames : List String :=
  ["board", "card", "view", "text", "checkbox", "comment", "image",
   "attachment", "divider"]

/-- Go's `strings.ToLower`, modelled character-pointwise (on the ASCII names
the switch below compares against, Go's Unicode lowering and this agree). -/
def goToLower (s : String) : String :=
  ⟨s.data.map Char.toLower⟩

/-- `BlockTypeFromString` (blocktype.go): switch on `strings.ToLower(s)`
(modelled by `goToLower`; both lowercase characters pointwise), returning
the matching block type with a nil error, or `(TypeUnknown,
ErrInvalidBlockType{s})` — the struct error returned **by value** — when
nothing matches. -/
def BlockTypeFromString (s : String) : BlockType × Option GoErr :=
  match goToLower s with
  | "board" => (TypeBoard, none)
  | "card" => (TypeCard, none)
  | "view" => (TypeView, none)
  | "text" => (TypeText, none)
  | "checkbox" => (TypeCheckbox, none)
  | "comment" => (TypeComment, none)
  | "image" => (TypeImage, none)
  | "attachment" => (TypeAttachment, none)
  | "divider" => (TypeDivider, none)
  | _ => (TypeUnknown, some (GoErr.invalidBlockTypeVal s))

/-- `errors.As(err, &eibt)` with `var eibt *ErrInvalidBlockType`: no error of
this package wraps another, so the match succeeds exactly when the dynamic
type of `err` is the pointer type `*ErrInvalidBlockType`.  The value type
`ErrInvalidBlockType` is not assignable to that pointer type, so a by-value
error never matches. -/
def errorsAsInvalidBlockTypePtr (err : GoErr) : Bool :=
  match err with
  | GoErr.invalidBlockTypePtr _ => true
  | _ => false

/-- `IsErrInvalidBlockType` (blocktype.go): `errors.As` against a
`*ErrInvalidBlockType` target (false on a nil error). -/
def IsErrInvalidBlockType (err : Option GoErr) : Bool :=
  match err with
  | none => false
  | some e => errorsAsInvalidBlockTypePtr e

lemma contains_iff_mem (l : List String) (a : String) : l.contains a = true ↔ a ∈ l :=
  List.elem_iff

lemma findOrphanBlock_eq_none_iff (ids : List String) (blocks : List Block) :
    findOrphanBlock ids blocks = none ↔ ∀ blk ∈ blocks, blk.BoardID ∈ ids := by
  induction blocks with
  | nil => simp [findOrphanBlock]
  | cons blk rest ih =>
    by_cases h : ids.contains blk.BoardID
    · rw [contains_iff_mem _ _] at h
      simp [findOrphanBlock, contains_iff_mem _ _, h, ih]
    · rw [contains_iff_mem _ _] at h
      simp [findOrphanBlock, contains_iff_mem _ _, h]

lemma findOrphanBlock_eq_some_iff (ids : List String) (blocks : List Block) (e : GoErr) :
    findOrphanBlock ids blocks = some e ↔
      ∃ pre blk post, blocks = pre ++ blk :: post ∧
        (∀ b ∈ pre, b.BoardID ∈ ids) ∧ blk.BoardID ∉ ids ∧
        e = GoErr.blockDoesntBelongToAnyBoard blk.ID := by
  induction blocks with
  | nil =>
    constructor
    · intro h
      simp [findOrphanBlock] at h
    · rintro ⟨pre, blk, post, h, -⟩
      exact absurd (List.append_eq_nil.mp h.symm).2 (List.cons_ne_nil _ _)
  | cons hd rest ih =>
    by_cases h : ids.contains hd.BoardID
    · rw [contains_iff_mem _ _] at h
      rw [findOrphanBlock, if_pos ((contains_iff_mem _ _).mpr h), ih]
      constructor
      · rintro ⟨pre, blk, post, hsplit, hpre, horphan, he⟩
        refine ⟨hd :: pre, blk, post, by simp [hsplit], ?_, horphan, he⟩
        intro b hb
        rcases List.mem_cons.mp hb with rfl | hb'
        · exact h
        · exact hpre b hb'
      · rintro ⟨pre, blk, post, hsplit, hpre, horphan, he⟩
        cases pre with
        | nil =>
          simp only [List.nil_append, List.cons.injEq] at hsplit
          exact absurd (hsplit.1 ▸ h) horphan
        | cons p ps =>
          simp only [List.cons_append, List.cons.injEq] at hsplit
          exact ⟨ps, blk, post, hsplit.2,
            fun b hb => hpre b (List.mem_cons_of_mem p hb), horphan, he⟩
    · rw [contains_iff_mem _ _] at h
      rw [findOrphanBlock, if_neg (fun hc => h ((contains_iff_mem _ _).mp hc))]
      constructor
      · rintro he
        exact ⟨[], hd, rest, rfl, by simp, h, (Option.some.injEq _ _).mp he.symm⟩
      · rintro ⟨pre, blk, post, hsplit, hpre, horphan, he⟩
        cases pre with
        | nil =>
          simp only [List.nil_append, List.cons.injEq] at hsplit
          rw [he, hsplit.1]
        | cons p ps =>
          simp only [List.cons_append, List.cons.injEq] at hsplit
          exact absurd (hsplit.1 ▸ hpre p (List.mem_cons_self p ps)) h


lemma find?_filter_ne (l : List (String × String)) (k q : String) (hk : k ≠ q) :
    (l.filter (fun p => p.1 ≠ q)).find? (fun p => p.1 == k) =
      l.find? (fun p => p.1 == k) := by
  have hcons : ∀ (a : String × String) (m : List (String × String)),
      (a :: m).find? (fun p => p.1 == k) =
        if a.1 = k then some a else m.find? (fun p => p.1 == k) := by
    intro a m
    rw [List.find?_cons]
    by_cases h : a.1 = k
    · simp [h]
    · simp [beq_false_of_ne h, h]
  induction l with
  | nil => rfl
  | cons x xs ih =>
    by_cases hx : x.1 = q
    · have hf : (decide (x.1 ≠ q)) = false := by simp [hx]
      rw [List.filter_cons, hf]
      simp only [Bool.false_eq_true, if_false]
      rw [ih, hcons, if_neg (by rw [hx]; exact Ne.symm hk)]
    · have hf : (decide (x.1 ≠ q)) = true := by simp [hx]
      rw [List.filter_cons, hf, if_pos rfl, hcons, hcons]
      by_cases hxk : x.1 = k
      · rw [if_pos hxk, if_pos hxk]
      · rw [if_neg hxk, if_neg hxk, ih]

lemma getHeader_setHeader_same (r : Request) (k v : String) :
    (r.setHeader k v).getHeader k = some v := by
  have hnone : (r.header.filter (fun p => p.1 ≠ k)).find? (fun p => p.1 == k) = none := by
    rw [List.find?_eq_none]
    intro x hx
    have hxk := List.of_mem_filter hx
    simp only [decide_eq_true_eq] at hxk
    simp [hxk]
  simp [Request.setHeader, Request.getHeader, List.find?_append, hnone]

lemma getHeader_setHeader_other (r : Request) (k q v : String) (hk : k ≠ q) :
    (r.setHeader q v).getHeader k = r.getHeader k := by
  rw [Request.setHeader, Request.getHeader, Request.getHeader]
  show ((r.header.filter (fun p => p.1 ≠ q) ++ [(q, v)]).find? (fun p => p.1 == k)).map Prod.snd = _
  rw [List.find?_append, find?_filter_ne r.header k q hk]
  cases hfind : r.header.find? (fun p => p.1 == k) with
  | none =>
    have : (q == k) = false := beq_false_of_ne (Ne.symm hk)
    simp [List.find?_cons, this]
  | some x => simp


/-- C1: for every create batch, `BoardsAndBlocks.IsValid` returns the
no-boards error exactly when the boards list is empty; otherwise the
no-blocks error exactly when the blocks list is empty; otherwise the orphan
error — carrying the offending block's own ID — for the first block in list
order whose BoardID equals no board's ID in the batch; and nil exactly when
none of these hold.  The precedence of the checks is as listed. -/
theorem boardsAndBlocks_isValid_spec (bab : BoardsAndBlocks) :
    (bab.IsValid = some GoErr.noBoardsInBoardsAndBlocks ↔ bab.Boards = []) ∧
    (bab.IsValid = some GoErr.noBlocksInBoardsAndBlocks ↔
      bab.Boards ≠ [] ∧ bab.Blocks = []) ∧
    (∀ bid, bab.IsValid = some (GoErr.blockDoesntBelongToAnyBoard bid) ↔
      (bab.Boards ≠ [] ∧
        ∃ pre blk post, bab.Blocks = pre ++ blk :: post ∧
          (∀ b ∈ pre, b.BoardID ∈ bab.Boards.map Board.ID) ∧
          blk.BoardID ∉ bab.Boards.map Board.ID ∧ bid = blk.ID)) ∧
    (bab.IsValid = none ↔
      (bab.Boards ≠ [] ∧ bab.Blocks ≠ [] ∧
        ∀ blk ∈ bab.Blocks, blk.BoardID ∈ bab.Boards.map Board.ID)) := by
  by_cases hb : bab.Boards = []
  · simp [BoardsAndBlocks.IsValid, hb]
  · by_cases hk : bab.Blocks = []
    · simp [BoardsAndBlocks.IsValid, List.length_eq_zero, hb, hk]
    · have hval : bab.IsValid = findOrphanBlock (bab.Boards.map Board.ID) bab.Blocks := by
        simp [BoardsAndBlocks.IsValid, List.length_eq_zero, hb, hk]
      refine ⟨?_, ?_, ?_, ?_⟩
      · rw [hval, findOrphanBlock_eq_some_iff]
        simp [hb]
      · rw [hval, findOrphanBlock_eq_some_iff]
        simp [hb, hk]
      · intro bid
        rw [hval, findOrphanBlock_eq_some_iff]
        simp only [GoErr.blockDoesntBelongToAnyBoard.injEq, hb, ne_eq,
          not_false_eq_true, true_and]
      · rw [hval, findOrphanBlock_eq_none_iff]
        simp [hb, hk]

/-- C2: for every patch batch, `PatchBoardsAndBlocks.IsValid` returns the
no-boards error exactly when BoardIDs is empty; otherwise the board-list
mismatch error exactly when BoardIDs and BoardPatches differ in length;
otherwise the block-list mismatch error exactly when BlockIDs and
BlockPatches differ in length; otherwise nil.  No non-emptiness check on
BlockIDs is performed: equal-length (possibly empty) block lists pass. -/
theorem patchBoardsAndBlocks_isValid_spec (dbab : PatchBoardsAndBlocks) :
    (dbab.IsValid = some GoErr.noBoardsInBoardsAndBlocks ↔ dbab.BoardIDs = []) ∧
    (dbab.IsValid = some GoErr.boardIDsAndPatchesMissmatch ↔
      dbab.BoardIDs ≠ [] ∧ dbab.BoardIDs.length ≠ dbab.BoardPatches.length) ∧
    (dbab.IsValid = some GoErr.blockIDsAndPatchesMissmatch ↔
      dbab.BoardIDs ≠ [] ∧ dbab.BoardIDs.length = dbab.BoardPatches.length ∧
      dbab.BlockIDs.length ≠ dbab.BlockPatches.length) ∧
    (dbab.IsValid = none ↔
      dbab.BoardIDs ≠ [] ∧ dbab.BoardIDs.length = dbab.BoardPatches.length ∧
      dbab.BlockIDs.length = dbab.BlockPatches.length) := by
  by_cases h1 : dbab.BoardIDs = []
  · simp [PatchBoardsAndBlocks.IsValid, h1]
  · have h0 : ¬ dbab.BoardIDs.length = 0 := by
      simpa [List.length_eq_zero] using h1
    by_cases h2 : dbab.BoardIDs.length = dbab.BoardPatches.length
    · have hp1 : dbab.BoardPatches ≠ [] := by
        intro hnil
        apply h1
        rw [← List.length_eq_zero, h2, hnil]
        rfl
      by_cases h3 : dbab.BlockIDs.length = dbab.BlockPatches.length
      · simp [PatchBoardsAndBlocks.IsValid, h0, h1, hp1, h2, h3]
      · simp [PatchBoardsAndBlocks.IsValid, h0, h1, hp1, h2, h3]
    · simp [PatchBoardsAndBlocks.IsValid, h0, h1, h2]


/-- C3 (amended): `doAPIRequestReader` applies the caller-supplied request
options FIRST, then sets the client's fixed identification header
`X-Requested-With: XMLHttpRequest` and, if a bearer token is set, the
`Authorization: Bearer <token>` header.  The defaults therefore override
caller-supplied headers; a key the defaults do not touch keeps whatever the
caller's options left there. -/
theorem doAPIRequestReaderHeaders_order (token : String) (opts : List RequestOption)
    (rq : Request) :
    (doAPIRequestReaderHeaders defaultHTTPHeader token opts rq).getHeader
        "X-Requested-With" = some "XMLHttpRequest" ∧
    (token ≠ "" →
      (doAPIRequestReaderHeaders defaultHTTPHeader token opts rq).getHeader
        "Authorization" = some ("Bearer " ++ token)) ∧
    (token = "" →
      (doAPIRequestReaderHeaders defaultHTTPHeader token opts rq).getHeader
        "Authorization" = (applyOpts opts rq).getHeader "Authorization") ∧
    (∀ k, k ≠ "X-Requested-With" → k ≠ "Authorization" →
      (doAPIRequestReaderHeaders defaultHTTPHeader token opts rq).getHeader k =
        (applyOpts opts rq).getHeader k) := by
  by_cases ht : token = ""
  · subst ht
    have hres : doAPIRequestReaderHeaders defaultHTTPHeader "" opts rq =
        (applyOpts opts rq).setHeader "X-Requested-With" "XMLHttpRequest" := by
      simp [doAPIRequestReaderHeaders, defaultHTTPHeader]
    refine ⟨?_, ?_, ?_, ?_⟩
    · rw [hres]
      exact getHeader_setHeader_same _ _ _
    · intro h
      exact absurd rfl h
    · intro h
      rw [hres, getHeader_setHeader_other _ _ _ _ (by decide)]
    · intro k hk1 hk2
      rw [hres, getHeader_setHeader_other _ _ _ _ hk1]
  · have hres : doAPIRequestReaderHeaders defaultHTTPHeader token opts rq =
        ((applyOpts opts rq).setHeader "X-Requested-With" "XMLHttpRequest").setHeader
          "Authorization" ("Bearer " ++ token) := by
      simp [doAPIRequestReaderHeaders, defaultHTTPHeader, ht]
    refine ⟨?_, ?_, ?_, ?_⟩
    · rw [hres, getHeader_setHeader_other _ _ _ _ (by decide)]
      exact getHeader_setHeader_same _ _ _
    · intro h
      rw [hres]
      exact getHeader_setHeader_same _ _ _
    · intro h
      exact absurd h ht
    · intro k hk1 hk2
      rw [hres, getHeader_setHeader_other _ _ _ _ hk2,
        getHeader_setHeader_other _ _ _ _ hk1]

/-- C3 counterexample: with the `NewClient` header configuration and bearer
token "tok", a caller-supplied option that sets `Authorization: custom` does
not survive: the transport sets `Authorization: Bearer tok` after the options
run, so the claim that caller-supplied headers are attached last and may
override the defaults is false at this input. -/
theorem doAPIRequestReaderHeaders_callerOverride_false :
    (doAPIRequestReaderHeaders defaultHTTPHeader "tok"
        [fun r => r.setHeader "Authorization" "custom"] ⟨[]⟩).getHeader "Authorization" =
      some "Bearer tok" ∧
    ¬ (doAPIRequestReaderHeaders defaultHTTPHeader "tok"
        [fun r => r.setHeader "Authorization" "custom"] ⟨[]⟩).getHeader "Authorization" =
      some "custom" :=
  ⟨by decide, by decide⟩

/-- C4: an obtained response with status at least 300 and different from 304
whose body reads as bytes `b` is classified by reading the whole body
eagerly, closing the connection, and returning an error value
(`RequestReaderError`) carrying exactly those body bytes, alongside the
response itself (which still exposes its status code and headers). -/
theorem doAPIRequestReaderClassify_requestFailed (rp : HTTPResponse) (b : String)
    (h3 : 300 ≤ rp.StatusCode) (h4 : rp.StatusCode ≠ 304)
    (hb : rp.Body = BodyRead.bytes b) :
    doAPIRequestReaderClassify ⟨some rp, none⟩ =
      ⟨some rp, some (GoErr.requestReaderError b), true⟩ := by
  simp [doAPIRequestReaderClassify, h3, h4, hb]

/-- C4 witness: status 500 with body "boom" yields `RequestReaderError`
carrying "boom", the 500 response returned alongside, and the body closed. -/
theorem doAPIRequestReaderClassify_requestFailed_witness :
    doAPIRequestReaderClassify ⟨some ⟨500, some [], BodyRead.bytes "boom"⟩, none⟩ =
      ⟨some ⟨500, some [], BodyRead.bytes "boom"⟩,
        some (GoErr.requestReaderError "boom"), true⟩ :=
  doAPIRequestReaderClassify_requestFailed ⟨500, some [], BodyRead.bytes "boom"⟩ "boom"
    (by decide) (by decide) rfl

/-- C5: a response obtained with status 304 Not Modified is returned
immediately as a success: nil error, and the body neither read nor closed
(the 304 branch precedes the >= 300 error-classification branch). -/
theorem doAPIRequestReaderClassify_notModified (rp : HTTPResponse)
    (h : rp.StatusCode = 304) :
    doAPIRequestReaderClassify ⟨some rp, none⟩ = ⟨some rp, none, false⟩ := by
  simp [doAPIRequestReaderClassify, h]

/-- C5 witness: a concrete 304 response comes back with no error and its body
untouched. -/
theorem doAPIRequestReaderClassify_notModified_witness :
    doAPIRequestReaderClassify ⟨some ⟨304, some [], BodyRead.bytes ""⟩, none⟩ =
      ⟨some ⟨304, some [], BodyRead.bytes ""⟩, none, false⟩ :=
  doAPIRequestReaderClassify_notModified ⟨304, some [], BodyRead.bytes ""⟩ rfl

/-- C6: when the HTTP capability fails before a response is obtained (it
returns a non-nil error, or a nil response), the transport returns that same
error with no result object: the returned response is nil. -/
theorem doAPIRequestReaderClassify_transportFailure (r : DoResult)
    (h : r.err ≠ none ∨ r.resp = none) :
    (doAPIRequestReaderClassify r).resp = none ∧
      (doAPIRequestReaderClassify r).err = r.err := by
  obtain ⟨rp, e⟩ := r
  cases e with
  | some e => simp [doAPIRequestReaderClassify]
  | none =>
    rcases h with h | h
    · exact absurd rfl h
    · have hrp : rp = none := h
      subst hrp
      simp [doAPIRequestReaderClassify]

/-- C6 witness: a concrete connection-refused failure yields no response and
the same error back. -/
theorem doAPIRequestReaderClassify_transportFailure_witness :
    (doAPIRequestReaderClassify ⟨none, some (GoErr.httpDoErr "connection refused")⟩).resp =
        none ∧
      (doAPIRequestReaderClassify ⟨none, some (GoErr.httpDoErr "connection refused")⟩).err =
        some (GoErr.httpDoErr "connection refused") :=
  doAPIRequestReaderClassify_transportFailure
    ⟨none, some (GoErr.httpDoErr "connection refused")⟩ (Or.inl (by decide))

/-- C7: a patch batch with non-empty BoardIDs, BoardIDs and BoardPatches of
equal length, and both block lists empty is valid: board-only patch batches
pass, in asymmetry with the create path (which requires both lists
non-empty, see the C1 theorem). -/
theorem patchBoardsAndBlocks_boardOnly_valid (dbab : PatchBoardsAndBlocks)
    (h1 : dbab.BoardIDs ≠ []) (h2 : dbab.BoardIDs.length = dbab.BoardPatches.length)
    (h3 : dbab.BlockIDs = []) (h4 : dbab.BlockPatches = []) :
    dbab.IsValid = none := by
  have h0 : ¬ dbab.BoardIDs.length = 0 := by
    simpa [List.length_eq_zero] using h1
  have hp : dbab.BoardPatches ≠ [] := by
    intro hnil
    apply h1
    rw [← List.length_eq_zero, h2, hnil]
    rfl
  simp [PatchBoardsAndBlocks.IsValid, h0, hp, h2, h3, h4]

/-- C7 witness: one board ID with one patch and no blocks validates ok. -/
theorem patchBoardsAndBlocks_boardOnly_valid_witness :
    PatchBoardsAndBlocks.IsValid ⟨["b1"], [⟨⟩], [], []⟩ = none :=
  patchBoardsAndBlocks_boardOnly_valid ⟨["b1"], [⟨⟩], [], []⟩ (by decide) rfl rfl rfl

/-- C8: both validators are deterministic: calling either twice on the same
unmodified input yields the same result both times.  (Freedom from input
mutation and from I/O holds by construction of the embedding: both
validators are total pure functions of their argument.) -/
theorem validators_deterministic (bab : BoardsAndBlocks) (dbab : PatchBoardsAndBlocks) :
    (validateCreateTwice bab).1 = (validateCreateTwice bab).2 ∧
      (validatePatchTwice dbab).1 = (validatePatchTwice dbab).2 :=
  ⟨rfl, rfl⟩

/-- C9: for every string whose lowercase form is none of the nine recognized
block-type names, `BlockTypeFromString` returns `TypeUnknown` together with
the by-value error `ErrInvalidBlockType{s}`, and `IsErrInvalidBlockType`
applied to that very error returns false, because its `errors.As` target is
the pointer type `*ErrInvalidBlockType`. -/
theorem blockTypeFromString_unrecognized (s : String)
    (h : goToLower s ∉ recognizedBlockTypeNames) :
    BlockTypeFromString s = (TypeUnknown, some (GoErr.invalidBlockTypeVal s)) ∧
      IsErrInvalidBlockType (some (GoErr.invalidBlockTypeVal s)) = false := by
  refine ⟨?_, rfl⟩
  simp only [recognizedBlockTypeNames, List.mem_cons, List.not_mem_nil, or_false,
    not_or] at h
  obtain ⟨h1, h2, h3, h4, h5, h6, h7, h8, h9⟩ := h
  unfold BlockTypeFromString
  split
  all_goals rename_i heq
  · exact absurd heq h1
  · exact absurd heq h2
  · exact absurd heq h3
  · exact absurd heq h4
  · exact absurd heq h5
  · exact absurd heq h6
  · exact absurd heq h7
  · exact absurd heq h8
  · exact absurd heq h9
  · rfl

/-- C9 witness: "zzz" parses to the unknown type with a by-value
`ErrInvalidBlockType` that `IsErrInvalidBlockType` does not recognize. -/
theorem blockTypeFromString_unrecognized_witness :
    BlockTypeFromString "zzz" = (TypeUnknown, some (GoErr.invalidBlockTypeVal "zzz")) ∧
      IsErrInvalidBlockType (some (GoErr.invalidBlockTypeVal "zzz")) = false :=
  blockTypeFromString_unrecognized "zzz" (by decide)

/-- C10: `BuildErrorResponse` with a nil response produces status code 0, an
empty but non-nil header map and the given error; with a non-nil response it
preserves that response's status code and header map unchanged and stores
the error. -/
theorem buildErrorResponse_spec (e : Option GoErr) (rp : HTTPResponse) :
    BuildErrorResponse none e = ⟨0, e, some []⟩ ∧
      (BuildErrorResponse none e).Header ≠ none ∧
      (BuildErrorResponse (some rp) e).StatusCode = rp.StatusCode ∧
      (BuildErrorResponse (some rp) e).Header = rp.Header ∧
      (BuildErrorResponse (some rp) e).Error = e :=
  ⟨rfl, by simp [BuildErrorResponse], rfl, rfl, rfl⟩

end Boards
